import Mathlib

/-!
# Verification of the NFL covers-prediction backend (`src/app.py`)

Shallow embedding of the prediction aggregation pipeline:
fetch results → normalize (`transform_api_data`) → score
(`calculate_cover_probability`) → week filter → sort → cache
(`get_nfl_predictions`).

Modelling conventions:
* Python floats are modelled as rationals (`ℚ`).  Every concrete value
  appearing in the claims (24, 20, 27, 23, 2.5, -3.0, 51.25, …) is a dyadic
  rational that is exactly representable as an IEEE double, and each
  arithmetic operation performed on them by the code is exact in double
  precision, so the rational model computes the very same values.
* Python `round(x, 1)` rounds to the nearest multiple of 1/10 with ties to
  even (`roundHalfEven`), which is what CPython's `double_round` does on the
  exact value of the float.
* JSON dictionaries with possibly-missing keys are records with `Option`
  fields; `d['k']` on a missing key is a raised `KeyError`, modelled by
  `Except.error`; `d.get('k', default)` is `Option.getD`.
* Instants (`datetime` values) are seconds since 1970-01-01T00:00:00Z, an
  integer.  1970-01-01 was a Thursday (`weekday() = 3` in Python's
  Monday=0 convention).  Python's `//` and `%` on integers agree with
  `Int.ediv`/`Int.emod` for positive divisors.
* The request handler reads the clock at lines 149, 169 and 198 of one
  request; the instants are modelled as a single `now` per invocation.
-/

/-- Per-team statistics as produced by `get_team_stats` (the values of the
`final_stats` dictionary): mean points for, mean points against, and the
against-the-spread win/loss/push counts. -/
structure TeamStats where
  ppg : ℚ
  opp_ppg : ℚ
  ats_wins : ℕ
  ats_losses : ℕ
  ats_pushes : ℕ
deriving DecidableEq

/-- The normalized game record built by `transform_api_data` (app.py:124-127). -/
structure Game where
  id : String
  gameTime : String
  awayTeam : String
  homeTeam : String
  favorite : String
  line : ℚ
deriving DecidableEq

/-- One entry of the `predictions` list built in `get_nfl_predictions`
(app.py:191-193): the game dict spread into the record plus the two computed
fields. -/
structure Prediction where
  game : Game
  cover_probability : ℚ
  favorite_ats_record : String
deriving DecidableEq

/-- An outcome dict inside a spreads market of the raw odds payload.
`name` and `point` are required by the code (`o['point']`, `o['name']`) but
may be absent from the JSON. -/
structure Outcome where
  name : Option String
  point : Option ℚ
deriving DecidableEq

/-- A market dict of the raw odds payload.  `m['key']` is a required access;
`m.get('outcomes', [])` has a default. -/
structure Market where
  key : Option String
  outcomes : Option (List Outcome)
deriving DecidableEq

/-- A bookmaker dict of the raw odds payload; `bookmaker.get('markets', [])`
has a default. -/
structure Bookmaker where
  markets : Option (List Market)
deriving DecidableEq

/-- A raw game object returned by The Odds API.  The fields read with
`game['…']` are required accesses; `game.get('bookmakers', [])` has a
default. -/
structure RawGame where
  id : Option String
  commence_time : Option String
  away_team : Option String
  home_team : Option String
  bookmakers : Option (List Bookmaker)
deriving DecidableEq

/-- Python `min(a, b)`: the first argument on ties. -/
def pyMin (a b : ℚ) : ℚ := if a ≤ b then a else b

/-- Python `max(a, b)`: the first argument on ties. -/
def pyMax (a b : ℚ) : ℚ := if b ≤ a then a else b

/-- Dictionary lookup `d.get(k)` on the team-stats mapping, modelled as an
association list with unique keys. -/
def lookupStats (all_team_stats : List (String × TeamStats)) (k : String) :
    Option TeamStats :=
  (all_team_stats.find? (fun p => p.1 == k)).map Prod.snd

/-- `calculate_cover_probability` (app.py:130-141).  Returns `50.0` when
either team is missing from the stats mapping, otherwise the clamped linear
model value. -/
def calculate_cover_probability (game : Game)
    (all_team_stats : List (String × TeamStats)) : ℚ :=
  match lookupStats all_team_stats game.homeTeam,
        lookupStats all_team_stats game.awayTeam with
  | some home_stats, some away_stats =>
    let home_power := home_stats.ppg - home_stats.opp_ppg
    let away_power := away_stats.ppg - away_stats.opp_ppg
    let projected_spread := away_power - home_power - 5/2
    let actual_line := if game.favorite == game.homeTeam then game.line else -game.line
    let value_difference := projected_spread - actual_line
    let probability := 50 + value_difference * (5/2)
    pyMax 5 (pyMin 95 probability)
  | _, _ => 50

/-- Round-half-to-even to an integer, the rounding CPython's `round` applies
to the exact value of a float. -/
def roundHalfEven (q : ℚ) : ℤ :=
  let n := q.floor
  let frac := q - n
  if frac < 1/2 then n
  else if 1/2 < frac then n + 1
  else if n % 2 = 0 then n else n + 1

/-- Python `round(q, 1)`. -/
def pyRound1 (q : ℚ) : ℚ := (roundHalfEven (q * 10) : ℚ) / 10

/-- The against-the-spread record string built at app.py:187-189:
`"{wins}-{losses}"`, with `"-{pushes}"` appended only when pushes > 0. -/
def atsRecordString (s : TeamStats) : String :=
  let base := toString s.ats_wins ++ "-" ++ toString s.ats_losses
  if s.ats_pushes > 0 then base ++ "-" ++ toString s.ats_pushes else base

/-- The body of the per-game loop at app.py:182-193: compute the probability,
look up the favorite's stats for the ATS record (defaulting to `"N/A"`), and
assemble the prediction dict. -/
def buildPrediction (team_stats : List (String × TeamStats)) (game : Game) :
    Prediction :=
  let probability := calculate_cover_probability game team_stats
  let ats_record :=
    match lookupStats team_stats game.favorite with
    | some favorite_stats => atsRecordString favorite_stats
    | none => "N/A"
  ⟨game, pyRound1 probability, ats_record⟩

/-! ## The odds normalizer (`transform_api_data`, app.py:110-128) -/

/-- A required dictionary access `d['k']`: raises `KeyError` when absent. -/
def req {α : Type} : Option α → Except String α
  | some a => .ok a
  | none => .error "KeyError"

/-- `next((m for m in markets if m['key'] == 'spreads'), None)` (app.py:118).
The generator is lazy: markets after the first spreads market are never
examined, but every scanned market's `'key'` access can raise. -/
def findSpreads : List Market → Except String (Option Market)
  | [] => .ok none
  | m :: ms =>
    match m.key with
    | none => .error "KeyError"
    | some k => if k == "spreads" then .ok (some m) else findSpreads ms

/-- `next((o for o in outcomes if o['point'] < 0), None)` (app.py:121), again
lazy with a raising `'point'` access on every scanned outcome. -/
def findFavorite : List Outcome → Except String (Option Outcome)
  | [] => .ok none
  | o :: os =>
    match o.point with
    | none => .error "KeyError"
    | some p => if p < 0 then .ok (some o) else findFavorite os

/-- The body of the `for game in api_games` loop (app.py:114-127): returns
`some game` when a record is appended, `none` when the record is silently
skipped by one of the `continue` statements, `.error` when a required field
access raises. -/
def processGame (g : RawGame) : Except String (Option Game) :=
  match g.bookmakers with
  | none => .ok none
  | some [] => .ok none
  | some (b :: _) =>
    match findSpreads (b.markets.getD []) with
    | .error e => .error e
    | .ok none => .ok none
    | .ok (some spreads_market) =>
      let outs := spreads_market.outcomes.getD []
      if outs.length < 2 then .ok none
      else
        match findFavorite outs with
        | .error e => .error e
        | .ok none => .ok none
        | .ok (some favorite_outcome) =>
          match req g.id, req g.commence_time, req g.away_team,
                req g.home_team, req favorite_outcome.name,
                req favorite_outcome.point with
          | .ok i, .ok ct, .ok aw, .ok hm, .ok nm, .ok pt =>
            .ok (some ⟨i, ct, aw, hm, nm, pt⟩)
          | .error e, _, _, _, _, _ => .error e
          | _, .error e, _, _, _, _ => .error e
          | _, _, .error e, _, _, _ => .error e
          | _, _, _, .error e, _, _ => .error e
          | _, _, _, _, .error e, _ => .error e
          | _, _, _, _, _, .error e => .error e

/-- The loop of `transform_api_data` over a non-empty raw list; the first
raised exception aborts the whole call. -/
def transformGo : List RawGame → Except String (List Game)
  | [] => .ok []
  | g :: gs =>
    match processGame g with
    | .error e => .error e
    | .ok r =>
      match transformGo gs with
      | .error e => .error e
      | .ok rest =>
        match r with
        | some game => .ok (game :: rest)
        | none => .ok rest

/-- `transform_api_data` (app.py:110-128).  `if not api_games: return games`
catches both `None` and the empty list. -/
def transform_api_data (api_games : Option (List RawGame)) :
    Except String (List Game) :=
  match api_games with
  | none => .ok []
  | some gs => if gs.isEmpty then .ok [] else transformGo gs

/-- The abstract result of the outbound HTTP request in `get_nfl_odds`:
either a successful JSON response (possibly an empty list of games) or a
raised `requests` exception / non-success status. -/
inductive HttpResult where
  | success (games : List RawGame)
  | failure
deriving DecidableEq

/-- `get_nfl_odds` (app.py:96-108): a successful response is returned as-is
(an empty list only logs a warning), any request exception yields `None`. -/
def get_nfl_odds : HttpResult → Option (List RawGame)
  | .success games => some games
  | .failure => none

/-! ## Instants and the week filter

An instant is the number of seconds since 1970-01-01T00:00:00Z.
`parseGameTime` models
`datetime.fromisoformat(game['gameTime'].replace('Z', '+00:00'))` on the
subset of ISO-8601 strings `YYYY-MM-DDTHH:MM:SS` with a mandatory
`+HH:MM`/`-HH:MM` offset; a string that does not parse, or parses to a naive
(offset-free) datetime, raises in the week-filter comparison, which the model
folds into `Except.error`. -/

/-- Gregorian leap year. -/
def isLeap (y : ℤ) : Bool := (y % 4 == 0 && y % 100 != 0) || y % 400 == 0

/-- Days in a month of the proleptic Gregorian calendar. -/
def daysInMonth (y : ℤ) (m : ℕ) : ℕ :=
  if m == 2 then (if isLeap y then 29 else 28)
  else if m == 4 || m == 6 || m == 9 || m == 11 then 30
  else 31

/-- Days from 1970-01-01 to year `y`, month `m`, day `d` (civil-from-days
algorithm; divisions are Euclidean, which agrees with floor division here
because every divisor is positive and the shifted operands are
non-negative). -/
def daysFromCivil (y : ℤ) (m d : ℕ) : ℤ :=
  let yy : ℤ := if m ≤ 2 then y - 1 else y
  let era : ℤ := yy / 400
  let yoe : ℤ := yy - era * 400
  let mp : ℤ := ((m : ℤ) + 9) % 12
  let doy : ℤ := (153 * mp + 2) / 5 + (d : ℤ) - 1
  let doe : ℤ := yoe * 365 + yoe / 4 - yoe / 100 + doy
  era * 146097 + doe - 719468

/-- Value of an ASCII digit. -/
def digitVal (c : Char) : Option ℕ :=
  if c.isDigit then some (c.toNat - 48) else none

/-- Two fixed digits. -/
def parse2 : List Char → Option (ℕ × List Char)
  | c1 :: c2 :: rest => do
    let d1 ← digitVal c1
    let d2 ← digitVal c2
    pure (10 * d1 + d2, rest)
  | _ => none

/-- A literal character. -/
def parseCh (c : Char) : List Char → Option (List Char)
  | c1 :: rest => if c1 = c then some rest else none
  | [] => none

/-- `YYYY-MM-DD` with the range checks `datetime.fromisoformat` performs. -/
def parseDate (cs : List Char) : Option (ℤ × ℕ × ℕ × List Char) := do
  let (y1, cs) ← parse2 cs
  let (y2, cs) ← parse2 cs
  let cs ← parseCh '-' cs
  let (mo, cs) ← parse2 cs
  let cs ← parseCh '-' cs
  let (dy, cs) ← parse2 cs
  let y : ℤ := (100 * y1 + y2 : ℕ)
  if (y1 == 0 && y2 == 0) || mo < 1 || 12 < mo || dy < 1 || daysInMonth y mo < dy
  then none else pure (y, mo, dy, cs)

/-- `HH:MM:SS` with range checks. -/
def parseHMS (cs : List Char) : Option (ℕ × ℕ × ℕ × List Char) := do
  let (hh, cs) ← parse2 cs
  let cs ← parseCh ':' cs
  let (mi, cs) ← parse2 cs
  let cs ← parseCh ':' cs
  let (ss, cs) ← parse2 cs
  if 23 < hh || 59 < mi || 59 < ss then none else pure (hh, mi, ss, cs)

/-- A mandatory `±HH:MM` UTC offset ending the string, in seconds. -/
def parseOffset (cs : List Char) : Option ℤ := do
  let sgn : ℤ ←
    match cs with
    | '+' :: _ => some 1
    | '-' :: _ => some (-1)
    | _ => none
  let (oh, cs) ← parse2 (cs.drop 1)
  let cs ← parseCh ':' cs
  let (om, cs) ← parse2 cs
  if 23 < oh || 59 < om || !cs.isEmpty then none
  else pure (sgn * ((oh : ℤ) * 3600 + (om : ℤ) * 60))

/-- `YYYY-MM-DDTHH:MM:SS±HH:MM` to seconds since the epoch. -/
def parseIsoAware (s : String) : Option ℤ := do
  let (y, mo, dy, cs) ← parseDate s.data
  let cs ← parseCh 'T' cs
  let (hh, mi, ss, cs) ← parseHMS cs
  let off ← parseOffset cs
  pure (daysFromCivil y mo dy * 86400 + (hh : ℤ) * 3600 + (mi : ℤ) * 60 + (ss : ℤ) - off)

/-- `s.replace('Z', '+00:00')`: the pattern is a single character, so the
replacement is character-wise. -/
def replaceZ : List Char → List Char
  | [] => []
  | c :: cs =>
    if c = 'Z' then '+' :: '0' :: '0' :: ':' :: '0' :: '0' :: replaceZ cs
    else c :: replaceZ cs

/-- `datetime.fromisoformat(gameTime.replace('Z', '+00:00'))` as an aware
instant. -/
def parseGameTime (s : String) : Option ℤ := parseIsoAware ⟨replaceZ s.data⟩

/-- `today.date()`: the civil day of an instant (floor division, as Python's
calendar is).  1970-01-01 is day 0. -/
def pyDay (t : ℤ) : ℤ := t / 86400

/-- `date.weekday()`, Monday = 0 … Sunday = 6.  Day 0 (1970-01-01) was a
Thursday, so its weekday is 3. -/
def pyWeekday (t : ℤ) : ℤ := (pyDay t + 3) % 7

/-- `start_of_week` (app.py:171-173): midnight UTC of
`today.date() - timedelta(days=(today.weekday() - 3) % 7)`. -/
def startOfWeek (now : ℤ) : ℤ :=
  (pyDay now - (pyWeekday now - 3) % 7) * 86400

/-- The list comprehension at app.py:176-179: parse every game's time (a
parse failure or naive result raises out of the request) and keep the games
in the closed-open window. -/
def filterWeek (sow eow : ℤ) : List Game → Except String (List Game)
  | [] => .ok []
  | g :: gs =>
    match parseGameTime g.gameTime with
    | none => .error "exception"
    | some t =>
      match filterWeek sow eow gs with
      | .error e => .error e
      | .ok rest => .ok (if sow ≤ t ∧ t < eow then g :: rest else rest)

/-! ## Sorting (`predictions.sort(key=lambda x: x['gameTime'])`, app.py:195)

Python sorts the prediction dicts by the `gameTime` string — the textual
encoding, not the parsed instant — using lexicographic comparison of code
points; `list.sort` is stable.  A stable sort by a total preorder is the
unique stable ascending order, so the standard insertion sort realizes it. -/

/-- Lexicographic `<=` on code-point sequences, as Python compares strings. -/
def strLeL : List Char → List Char → Bool
  | [], _ => true
  | _ :: _, [] => false
  | a :: as_, b :: bs =>
    if a.toNat < b.toNat then true
    else if b.toNat < a.toNat then false
    else strLeL as_ bs

/-- Python string `<=`. -/
def strLe (a b : String) : Bool := strLeL a.data b.data

/-- The sort key comparison of app.py:195. -/
def predLe (a b : Prediction) : Prop :=
  strLe a.game.gameTime b.game.gameTime = true

instance decPredLe : DecidableRel predLe := fun a b =>
  inferInstanceAs (Decidable (strLe a.game.gameTime b.game.gameTime = true))

/-- `predictions.sort(key=lambda x: x['gameTime'])`: the stable ascending
sort by the `gameTime` string. -/
def sortPredictions (predictions : List Prediction) : List Prediction :=
  List.insertionSort predLe predictions

/-! ## The cache and the endpoint (`get_nfl_predictions`, app.py:144-200) -/

/-- The module-level cache (app.py:26-27): `cached_data = None`,
`last_fetch_time = None`. -/
structure CacheState where
  cached_data : Option (List Prediction)
  last_fetch_time : Option ℤ
deriving DecidableEq

/-- The per-request environment: the clock and the results the two outbound
fetches would produce during this request.  `apiKey` is
`THE_ODDS_API_KEY` (`None` when the variable is unset); `teamStats` is what
`get_team_stats()` returns (`None` on failure); `oddsResult` is the outcome
of the HTTP request `get_nfl_odds` would make. -/
structure Env where
  now : ℤ
  apiKey : Option String
  teamStats : Option (List (String × TeamStats))
  oddsResult : HttpResult
deriving DecidableEq

/-- The HTTP response of the endpoint: a JSON payload or an aborted request
with a status code. -/
inductive Resp where
  | ok (payload : List Prediction)
  | err (status : ℕ) (msg : String)
deriving DecidableEq

/-- `if not THE_ODDS_API_KEY` (app.py:154): falsy for `None` and for the
empty string. -/
def keyFalsy : Option String → Bool
  | none => true
  | some s => s.isEmpty

/-- `if not odds_data` at app.py:161: falsy for `None` and for `[]`. -/
def oddsFalsy : Option (List RawGame) → Bool
  | none => true
  | some l => l.isEmpty

/-- The cache-hit test at app.py:149:
`cached_data and last_fetch_time and now - last_fetch_time < timedelta(minutes=30)`.
An empty cached list is falsy, so it never hits. -/
def cacheHitB (env : Env) (st : CacheState) : Bool :=
  match st.cached_data, st.last_fetch_time with
  | some payload, some t0 => !payload.isEmpty && decide (env.now - t0 < 30 * 60)
  | _, _ => false

/-- `get_nfl_predictions` (app.py:144-200) as a pure transition function:
from the request environment and the cache state to the HTTP response, the
new cache state, and a flag recording whether the fetch/compute pipeline ran
(i.e. whether control reached app.py:158).  An exception escaping the
handler (a `KeyError`/`ValueError`/`TypeError` from the transform or the
date parsing) is Flask's 500 response and leaves the globals unchanged. -/
def get_nfl_predictions (env : Env) (st : CacheState) :
    Resp × CacheState × Bool :=
  if cacheHitB env st then
    (.ok (st.cached_data.getD []), st, false)
  else if keyFalsy env.apiKey then
    (.err 500 "API key is not configured on the server.", st, false)
  else
    let odds_data := get_nfl_odds env.oddsResult
    if env.teamStats.isNone || oddsFalsy odds_data then
      (.err 503 "Failed to fetch data from one or more external sources.", st, true)
    else
      match transform_api_data odds_data with
      | .error _ => (.err 500 "Internal Server Error", st, true)
      | .ok all_games =>
        let start_of_week := startOfWeek env.now
        let end_of_week := start_of_week + 7 * 86400
        match filterWeek start_of_week end_of_week all_games with
        | .error _ => (.err 500 "Internal Server Error", st, true)
        | .ok current_week_games =>
          let team_stats := env.teamStats.getD []
          let predictions :=
            sortPredictions (current_week_games.map (buildPrediction team_stats))
          (.ok predictions, ⟨some predictions, some env.now⟩, true)

/-! ## Derived predicates used to state the theorems -/

/-- The test `m['key'] == 'spreads'` on a field-complete market. -/
def isSpreadsMarket (m : Market) : Bool :=
  match m.key with
  | some k => k == "spreads"
  | none => false

/-- The test `o['point'] < 0` on a field-complete outcome. -/
def hasNegativePoint (o : Outcome) : Bool :=
  match o.point with
  | some p => decide (p < 0)
  | none => false

/-- All fields the loop body can read are present in an outcome. -/
def outcomeFieldsOk (o : Outcome) : Bool := o.name.isSome && o.point.isSome

/-- All fields the loop body can read are present in a market. -/
def marketFieldsOk (m : Market) : Bool :=
  m.key.isSome && (m.outcomes.getD []).all outcomeFieldsOk

/-- All fields the loop body can read are present in a raw game record:
game-level required keys, and every market/outcome of the first bookmaker is
field-complete.  (Only the first bookmaker is ever read.) -/
def rawFieldsOk (g : RawGame) : Bool :=
  g.id.isSome && g.commence_time.isSome && g.away_team.isSome &&
  g.home_team.isSome &&
    (match g.bookmakers with
     | some (b :: _) => (b.markets.getD []).all marketFieldsOk
     | _ => true)

/-- The loop body of `transform_api_data` restricted to field-complete
records, where no access can raise: `some` is the appended game, `none` a
silent skip.  `processGame_fieldsOk` proves it agrees with `processGame`. -/
def pureProcess (g : RawGame) : Option Game :=
  match g.bookmakers with
  | some (b :: _) =>
    match (b.markets.getD []).find? isSpreadsMarket with
    | some spreads_market =>
      let outs := spreads_market.outcomes.getD []
      if outs.length < 2 then none
      else
        match outs.find? hasNegativePoint with
        | some o =>
          some ⟨g.id.getD "", g.commence_time.getD "", g.away_team.getD "",
                g.home_team.getD "", o.name.getD "", o.point.getD 0⟩
        | none => none
    | none => none
  | _ => none

/-- Every outcome name appearing under the first bookmaker of a raw record
names one of the two listed teams (the well-formedness the upstream odds
source is trusted to provide, which the code never checks). -/
def rawNamesOk (g : RawGame) : Bool :=
  match g.bookmakers with
  | some (b :: _) =>
    (b.markets.getD []).all fun m =>
      (m.outcomes.getD []).all fun o =>
        match o.name with
        | some n => (g.away_team == some n) || (g.home_team == some n)
        | none => true
  | _ => true

/-! ## Concrete instances the theorems evaluate the model on -/

/-- A spreads market quoting team H at -3 and team A at +3. -/
def marketHA : Market :=
  ⟨some "spreads", some [⟨some "H", some (-3)⟩, ⟨some "A", some 3⟩]⟩

/-- A bookmaker carrying only `marketHA`. -/
def bookmakerHA : Bookmaker := ⟨some [marketHA]⟩

/-- A raw game in Zulu form, kickoff 1970-01-01T01:00:00Z (instant 3600). -/
def rawZulu : RawGame :=
  ⟨some "a", some "1970-01-01T01:00:00Z", some "C", some "D", some [bookmakerHA]⟩

/-- A raw game quoted with an explicit +02:00 offset: the same week, but an
EARLIER instant (1970-01-01T00:00:00Z, instant 0) than `rawZulu`, while its
string compares lexicographically larger. -/
def rawOffset : RawGame :=
  ⟨some "b", some "1970-01-01T02:00:00+02:00", some "A", some "H",
   some [bookmakerHA]⟩

/-- A raw game two months outside the epoch week. -/
def rawFar : RawGame :=
  ⟨some "g1", some "1970-03-01T00:00:00Z", some "A", some "H",
   some [bookmakerHA]⟩

/-- A raw game whose only market lacks the required `'key'` field. -/
def badMarketGame : RawGame :=
  ⟨some "g", some "1970-01-01T01:00:00Z", some "A", some "H",
   some [⟨some [⟨none, some []⟩]⟩]⟩

/-- A raw game whose favorite outcome names a string that is neither listed
team. -/
def rogueGame : RawGame :=
  ⟨some "g", some "1970-01-01T01:00:00Z", some "A", some "H",
   some [⟨some [⟨some "spreads",
     some [⟨some "X", some (-3)⟩, ⟨some "A", some 3⟩]⟩]⟩]⟩

/-- A raw game whose outcome names match its two teams. -/
def rawGood : RawGame :=
  ⟨some "w", some "1970-01-02T00:00:00Z", some "A", some "H",
   some [bookmakerHA]⟩

/-- The Game that `rawGood` normalizes to. -/
def gameGood : Game := ⟨"w", "1970-01-02T00:00:00Z", "A", "H", "H", -3⟩

/-- A raw game with no bookmakers: silently dropped. -/
def noBookGame : RawGame :=
  ⟨some "n", some "1970-01-02T00:00:00Z", some "A", some "H", some []⟩

/-- The stats mapping of the worked example in the specification. -/
def exampleStats : List (String × TeamStats) :=
  [("Home", ⟨24, 20, 0, 0, 0⟩), ("Away", ⟨27, 23, 0, 0, 0⟩)]

/-- The game of the worked example: favorite is the home team at -3.0. -/
def exampleGame : Game := ⟨"x", "2023-09-08T00:20:00Z", "Away", "Home", "Home", -3⟩

/-- A stats mapping holding only the away team. -/
def statsAwayOnly : List (String × TeamStats) := [("Away", ⟨20, 10, 2, 1, 0⟩)]

/-- A game whose favorite (the away team) has stats but whose home team does
not. -/
def gameAwayFav : Game := ⟨"x", "t", "Away", "Home", "Away", -3⟩

/-- A game exactly at the start of the week of instant 1000000
(Thursday 1970-01-08T00:00:00Z). -/
def gameAtStart : Game := ⟨"s", "1970-01-08T00:00:00Z", "A", "H", "H", -3⟩

/-- A game exactly at the end of that week (Thursday 1970-01-15T00:00:00Z). -/
def gameAtEnd : Game := ⟨"e", "1970-01-15T00:00:00Z", "A", "H", "H", -3⟩

/-- A stored prediction used as a cached payload. -/
def predState : Prediction :=
  ⟨⟨"a", "1970-01-01T01:00:00Z", "C", "D", "H", -3⟩, 50, "N/A"⟩

/-- The empty initial cache. -/
def stEmpty : CacheState := ⟨none, none⟩

/-- A cache holding a non-empty payload stored at instant 0. -/
def stStale : CacheState := ⟨some [predState], some 0⟩

/-- First call at instant 0 with a configured key; odds list only the
out-of-week game. -/
def envFirst : Env := ⟨0, some "k", some [], .success [rawFar]⟩

/-- Second call sixty seconds later, same upstream data. -/
def envSecond : Env := ⟨60, some "k", some [], .success [rawFar]⟩

/-- A call one minute after instant 0 with a configured key (upstream would
fail, which a cache hit never consults). -/
def envFresh : Env := ⟨60, some "k", some [], .failure⟩

/-- A call whose odds fetch succeeds with an empty game list. -/
def envEmptyOdds : Env := ⟨0, some "k", some [], .success []⟩

/-- A call whose odds payload contains the key-less market. -/
def envBadMarket : Env := ⟨0, some "k", some [], .success [badMarketGame]⟩

/-- A call whose odds payload mixes Zulu and +02:00 time strings. -/
def envMixed : Env := ⟨0, some "k", some [], .success [rawOffset, rawZulu]⟩

/-- A call two hours after instant 0 whose stats fetch fails. -/
def envStatsFail : Env := ⟨7200, some "k", none, .success [rawZulu]⟩

/-- A call one minute after instant 0 with the API key NOT configured. -/
def envNoKey : Env := ⟨60, none, none, .failure⟩

/-! ## Order properties of the sort key, and sanity checks -/

theorem strLeL_refl : ∀ cs : List Char, strLeL cs cs = true
  | [] => rfl
  | c :: cs => by simp [strLeL, strLeL_refl cs]

theorem strLeL_total : ∀ as_ bs : List Char,
    strLeL as_ bs = true ∨ strLeL bs as_ = true
  | [], _ => .inl rfl
  | _ :: _, [] => .inr rfl
  | a :: as_, b :: bs => by
    simp only [strLeL]
    rcases Nat.lt_trichotomy a.toNat b.toNat with h | h | h
    · left; simp [h]
    · have h2 : ¬ a.toNat < b.toNat := by omega
      have h3 : ¬ b.toNat < a.toNat := by omega
      simpa [h2, h3] using strLeL_total as_ bs
    · right; simp [h]

theorem strLeL_head_le {a b : Char} {as_ bs : List Char}
    (h : strLeL (a :: as_) (b :: bs) = true) : a.toNat ≤ b.toNat := by
  by_cases hab : a.toNat < b.toNat
  · omega
  · by_cases hba : b.toNat < a.toNat
    · simp [strLeL, hab, hba] at h
    · omega

theorem strLeL_trans : ∀ as_ bs cs : List Char,
    strLeL as_ bs = true → strLeL bs cs = true → strLeL as_ cs = true
  | [], _, _, _, _ => rfl
  | _ :: _, [], _, h1, _ => by simp [strLeL] at h1
  | _ :: _, _ :: _, [], _, h2 => by simp [strLeL] at h2
  | a :: as_, b :: bs, c :: cs, h1, h2 => by
    have hab := strLeL_head_le h1
    have hbc := strLeL_head_le h2
    by_cases hac : a.toNat < c.toNat
    · simp [strLeL, hac]
    · have hab' : a.toNat = b.toNat := by omega
      have hbc' : b.toNat = c.toNat := by omega
      have hac' : a.toNat = c.toNat := by omega
      simp only [strLeL, hab', lt_self_iff_false, if_false] at h1
      simp only [strLeL, hbc', lt_self_iff_false, if_false] at h2
      simp only [strLeL, hac', lt_self_iff_false, if_false]
      exact strLeL_trans as_ bs cs h1 h2

instance : IsTotal Prediction predLe :=
  ⟨fun a b => strLeL_total a.game.gameTime.data b.game.gameTime.data⟩

instance : IsTrans Prediction predLe :=
  ⟨fun a b c => strLeL_trans a.game.gameTime.data b.game.gameTime.data
    c.game.gameTime.data⟩

example :
    calculate_cover_probability ⟨"x", "t", "A", "H", "H", -3⟩
      [("H", ⟨24, 20, 0, 0, 0⟩), ("A", ⟨27, 23, 0, 0, 0⟩)] = 205/4 := by
  with_unfolding_all decide

example :
    (buildPrediction [("H", ⟨24, 20, 0, 0, 0⟩), ("A", ⟨27, 23, 0, 0, 0⟩)]
      ⟨"x", "t", "A", "H", "H", -3⟩).cover_probability = 256/5 := by
  with_unfolding_all decide

example : daysFromCivil 1970 1 1 = 0 := by decide
example : daysFromCivil 1970 3 1 = 59 := by decide
example : daysFromCivil 2023 9 8 = 19608 := by decide
example : parseGameTime "1970-01-01T01:00:00Z" = some 3600 := by decide
example : parseGameTime "1970-01-01T02:00:00+02:00" = some 0 := by decide
example : parseGameTime "1970-01-01T00:00:00" = none := by decide
example : startOfWeek 43200 = 0 := by decide
example : startOfWeek (6 * 86400 + 5) = 0 := by decide
example : startOfWeek (7 * 86400) = 7 * 86400 := by decide

/-! ## Helper lemmas -/

/-- Once the cache misses and the API key is configured, every remaining
branch of the handler has invoked the fetch/compute pipeline. -/
theorem pipeline_flag (env : Env) (st : CacheState)
    (hmiss : cacheHitB env st = false) (hkey : keyFalsy env.apiKey = false) :
    (get_nfl_predictions env st).2.2 = true := by
  unfold get_nfl_predictions
  rw [hmiss, hkey]
  simp only [Bool.false_eq_true, if_false]
  split
  · rfl
  · split
    · rfl
    · split
      · rfl
      · rfl

/-- A non-empty cached payload within the window is a cache hit. -/
theorem cacheHitB_of_fresh (env : Env) (st : CacheState)
    (payload : List Prediction) (t0 : ℤ) (hc : st.cached_data = some payload)
    (ht : st.last_fetch_time = some t0) (hne : payload ≠ [])
    (hfresh : env.now - t0 < 30 * 60) : cacheHitB env st = true := by
  unfold cacheHitB
  rw [hc, ht]
  cases payload with
  | nil => exact absurd rfl hne
  | cons p ps =>
    simp only [List.isEmpty, Bool.not_false, Bool.true_and, decide_eq_true_eq]
    omega

/-- On a cache hit the stored payload is returned unchanged and nothing else
runs. -/
theorem hit_returns_cache (env : Env) (st : CacheState)
    (h : cacheHitB env st = true) :
    get_nfl_predictions env st = (.ok (st.cached_data.getD []), st, false) := by
  unfold get_nfl_predictions
  rw [h]
  simp


/-- When every scanned market has its `'key'` field, the lazy scan raises
nothing and agrees with a total `find?`. -/
theorem findSpreads_keys_ok (ms : List Market)
    (h : ∀ m ∈ ms, m.key.isSome = true) :
    findSpreads ms = .ok (ms.find? isSpreadsMarket) := by
  induction ms with
  | nil => rfl
  | cons m ms ih =>
    have hm := h m (List.mem_cons_self m ms)
    cases hk : m.key with
    | none => rw [hk] at hm; simp at hm
    | some k =>
      cases hs : (k == "spreads") with
      | true => simp [findSpreads, hk, hs, List.find?, isSpreadsMarket]
      | false =>
        simp only [findSpreads, hk, hs, Bool.false_eq_true, if_false]
        rw [ih (fun m2 hm2 => h m2 (List.mem_cons_of_mem _ hm2))]
        simp [List.find?, isSpreadsMarket, hk, hs]

/-- When every scanned outcome has its `'point'` field, the lazy scan raises
nothing and agrees with a total `find?`. -/
theorem findFavorite_points_ok (os : List Outcome)
    (h : ∀ o ∈ os, o.point.isSome = true) :
    findFavorite os = .ok (os.find? hasNegativePoint) := by
  induction os with
  | nil => rfl
  | cons o os ih =>
    have ho := h o (List.mem_cons_self o os)
    cases hp : o.point with
    | none => rw [hp] at ho; simp at ho
    | some p =>
      cases hs : decide (p < 0) with
      | true =>
        have hlt : p < 0 := of_decide_eq_true hs
        simp [findFavorite, hp, hlt, List.find?, hasNegativePoint, hs]
      | false =>
        have hge : ¬ p < 0 := of_decide_eq_false hs
        simp only [findFavorite, hp, hge, if_false]
        rw [ih (fun o2 ho2 => h o2 (List.mem_cons_of_mem _ ho2))]
        simp [List.find?, hasNegativePoint, hp, hs]

/-- A market produced by the lazy spreads scan is one of the scanned
markets. -/
theorem findSpreads_mem {ms : List Market} {m : Market} :
    findSpreads ms = .ok (some m) → m ∈ ms := by
  induction ms with
  | nil => intro h; simp [findSpreads] at h
  | cons m0 ms ih =>
    intro h
    cases hk : m0.key with
    | none => simp [findSpreads, hk] at h
    | some k =>
      by_cases hs : (k == "spreads") = true
      · simp only [findSpreads, hk, hs, if_true, Except.ok.injEq,
          Option.some.injEq] at h
        exact h ▸ List.mem_cons_self m0 ms
      · simp only [findSpreads, hk, hs, if_false, Bool.false_eq_true] at h
        exact List.mem_cons_of_mem _ (ih h)

/-- An outcome produced by the lazy favorite scan is one of the scanned
outcomes and carries a strictly negative point. -/
theorem findFavorite_mem {os : List Outcome} {o : Outcome} :
    findFavorite os = .ok (some o) → o ∈ os ∧ ∃ p, o.point = some p ∧ p < 0 := by
  induction os with
  | nil => intro h; simp [findFavorite] at h
  | cons o0 os ih =>
    intro h
    cases hp : o0.point with
    | none => simp [findFavorite, hp] at h
    | some p =>
      by_cases hlt : p < 0
      · simp only [findFavorite, hp, hlt, if_true, Except.ok.injEq,
          Option.some.injEq] at h
        subst h
        exact ⟨List.mem_cons_self o0 os, p, hp, hlt⟩
      · simp only [findFavorite, hp, hlt, if_false] at h
        obtain ⟨hmem, rest⟩ := ih h
        exact ⟨List.mem_cons_of_mem _ hmem, rest⟩

/-- On a field-complete record no access raises and the loop body computes
its total counterpart. -/
theorem processGame_fieldsOk {g : RawGame} (h : rawFieldsOk g = true) :
    processGame g = .ok (pureProcess g) := by
  unfold rawFieldsOk at h
  simp only [Bool.and_eq_true] at h
  obtain ⟨⟨⟨⟨hid, hct⟩, haw⟩, hhm⟩, hbk⟩ := h
  cases hb : g.bookmakers with
  | none => simp [processGame, pureProcess, hb]
  | some bl =>
    cases bl with
    | nil => simp [processGame, pureProcess, hb]
    | cons b bs =>
      rw [hb] at hbk
      have hball : (b.markets.getD []).all marketFieldsOk = true := hbk
      have hkeys : ∀ m ∈ b.markets.getD [], m.key.isSome = true := by
        intro m hm
        have hmf := (List.all_eq_true.mp hball) m hm
        simp only [marketFieldsOk, Bool.and_eq_true] at hmf
        exact hmf.1
      simp only [processGame, pureProcess, hb]
      rw [findSpreads_keys_ok _ hkeys]
      cases hfs : (b.markets.getD []).find? isSpreadsMarket with
      | none => rfl
      | some spreads_market =>
        have hmm : spreads_market ∈ b.markets.getD [] :=
          List.mem_of_find?_eq_some hfs
        have hmk := (List.all_eq_true.mp hball) spreads_market hmm
        simp only [marketFieldsOk, Bool.and_eq_true] at hmk
        have houts : ∀ o ∈ spreads_market.outcomes.getD [],
            outcomeFieldsOk o = true := List.all_eq_true.mp hmk.2
        have hpts : ∀ o ∈ spreads_market.outcomes.getD [],
            o.point.isSome = true := by
          intro o ho
          have hof := houts o ho
          simp only [outcomeFieldsOk, Bool.and_eq_true] at hof
          exact hof.2
        by_cases hlen : (spreads_market.outcomes.getD []).length < 2
        · simp [hlen]
        · simp only [hlen, if_false]
          rw [findFavorite_points_ok _ hpts]
          cases hff : (spreads_market.outcomes.getD []).find? hasNegativePoint with
          | none => rfl
          | some o =>
            have hom : o ∈ spreads_market.outcomes.getD [] :=
              List.mem_of_find?_eq_some hff
            have hofk := houts o hom
            simp only [outcomeFieldsOk, Bool.and_eq_true] at hofk
            obtain ⟨i, hi⟩ := Option.isSome_iff_exists.mp hid
            obtain ⟨ct, hct2⟩ := Option.isSome_iff_exists.mp hct
            obtain ⟨aw, haw2⟩ := Option.isSome_iff_exists.mp haw
            obtain ⟨hm, hhm2⟩ := Option.isSome_iff_exists.mp hhm
            obtain ⟨nm, hnm2⟩ := Option.isSome_iff_exists.mp hofk.1
            obtain ⟨pt, hpt2⟩ := Option.isSome_iff_exists.mp hofk.2
            simp [req, hi, hct2, haw2, hhm2, hnm2, hpt2]

/-- Inversion of a successful emit: the favorite field is the name of some
negative-point outcome of the selected spreads market, and the line is that
outcome's (negative) point; the team fields are copied from the raw
record. -/
theorem processGame_some {g : RawGame} {gm : Game}
    (h : processGame g = .ok (some gm)) :
    ∃ b bs, g.bookmakers = some (b :: bs) ∧
    ∃ m, findSpreads (b.markets.getD []) = .ok (some m) ∧
    ∃ o, o ∈ m.outcomes.getD [] ∧ o.name = some gm.favorite ∧
      o.point = some gm.line ∧ gm.line < 0 ∧
      g.away_team = some gm.awayTeam ∧ g.home_team = some gm.homeTeam := by
  cases hb : g.bookmakers with
  | none => simp [processGame, hb] at h
  | some bl =>
    cases bl with
    | nil => simp [processGame, hb] at h
    | cons b bs =>
      refine ⟨b, bs, rfl, ?_⟩
      simp only [processGame, hb] at h
      cases hfs : findSpreads (b.markets.getD []) with
      | error e => rw [hfs] at h; simp at h
      | ok smo =>
        rw [hfs] at h
        cases smo with
        | none => simp at h
        | some m =>
          refine ⟨m, rfl, ?_⟩
          by_cases hlen : (m.outcomes.getD []).length < 2
          · simp [hlen] at h
          · simp only [hlen, if_false] at h
            cases hff : findFavorite (m.outcomes.getD []) with
            | error e => rw [hff] at h; simp at h
            | ok fo =>
              rw [hff] at h
              cases fo with
              | none => simp at h
              | some o =>
                obtain ⟨hom, p, hp, hplt⟩ := findFavorite_mem hff
                cases hi : g.id with
                | none => simp [req, hi] at h
                | some i =>
                cases hct : g.commence_time with
                | none => simp [req, hi, hct] at h
                | some ct =>
                cases haw : g.away_team with
                | none => simp [req, hi, hct, haw] at h
                | some aw =>
                cases hhm : g.home_team with
                | none => simp [req, hi, hct, haw, hhm] at h
                | some hm =>
                cases hnm : o.name with
                | none => simp [req, hi, hct, haw, hhm, hnm] at h
                | some nm =>
                simp only [req, hi, hct, haw, hhm, hnm, hp, Except.ok.injEq,
                  Option.some.injEq] at h
                subst h
                exact ⟨o, hom, by simp [hnm], by simp [hp], hplt, by simp [haw],
                  by simp [hhm]⟩

/-- On field-complete input the whole loop is total and computes the
filter-map of the per-record total body: malformed-but-field-complete
records are silently dropped, the others are appended in order. -/
theorem transformGo_fieldsOk (l : List RawGame)
    (h : ∀ g ∈ l, rawFieldsOk g = true) :
    transformGo l = .ok (l.filterMap pureProcess) := by
  induction l with
  | nil => rfl
  | cons g gs ih =>
    have hg := processGame_fieldsOk (h g (List.mem_cons_self g gs))
    simp only [transformGo, hg,
      ih (fun g2 hg2 => h g2 (List.mem_cons_of_mem _ hg2))]
    cases hpp : pureProcess g with
    | none => simp [List.filterMap_cons, hpp]
    | some game => simp [List.filterMap_cons, hpp]

/-- Every game in a successful loop result was emitted by some raw record of
the input. -/
theorem transformGo_mem {l : List RawGame} {res : List Game} {gm : Game}
    (h : transformGo l = .ok res) (hmem : gm ∈ res) :
    ∃ g ∈ l, processGame g = .ok (some gm) := by
  induction l generalizing res with
  | nil =>
    simp only [transformGo, Except.ok.injEq] at h
    subst h
    simp at hmem
  | cons g gs ih =>
    simp only [transformGo] at h
    cases hp : processGame g with
    | error e => rw [hp] at h; simp at h
    | ok r =>
      rw [hp] at h
      cases ht : transformGo gs with
      | error e => rw [ht] at h; simp at h
      | ok rest =>
        rw [ht] at h
        cases r with
        | some game =>
          simp only [Except.ok.injEq] at h
          subst h
          rcases List.mem_cons.mp hmem with heq | hmem2
          · exact ⟨g, List.mem_cons_self g gs, heq ▸ hp⟩
          · obtain ⟨g2, hg2, hpg2⟩ := ih ht hmem2
            exact ⟨g2, List.mem_cons_of_mem _ hg2, hpg2⟩
        | none =>
          simp only [Except.ok.injEq] at h
          subst h
          obtain ⟨g2, hg2, hpg2⟩ := ih ht hmem
          exact ⟨g2, List.mem_cons_of_mem _ hg2, hpg2⟩

/-- `transform_api_data` on field-complete records. -/
theorem transform_fieldsOk (l : List RawGame)
    (h : ∀ g ∈ l, rawFieldsOk g = true) :
    transform_api_data (some l) = .ok (l.filterMap pureProcess) := by
  cases l with
  | nil => rfl
  | cons g gs =>
    simp only [transform_api_data, List.isEmpty_cons, Bool.false_eq_true,
      if_false]
    exact transformGo_fieldsOk _ h

/-- Provenance of the games a successful `transform_api_data` returns. -/
theorem transform_mem {l : List RawGame} {res : List Game} {gm : Game}
    (h : transform_api_data (some l) = .ok res) (hmem : gm ∈ res) :
    ∃ g ∈ l, processGame g = .ok (some gm) := by
  cases l with
  | nil =>
    simp only [transform_api_data, List.isEmpty_nil, if_true,
      Except.ok.injEq] at h
    subst h
    simp at hmem
  | cons g gs =>
    simp only [transform_api_data, List.isEmpty_cons, Bool.false_eq_true,
      if_false] at h
    exact transformGo_mem h hmem

/-- A successful week filter returns exactly the games whose parsed time
lies in the closed-open window. -/
theorem filterWeek_ok (sow eow : ℤ) (games : List Game) (res : List Game)
    (h : filterWeek sow eow games = .ok res) :
    res = games.filter (fun g =>
      match parseGameTime g.gameTime with
      | some t => decide (sow ≤ t ∧ t < eow)
      | none => false) := by
  induction games generalizing res with
  | nil =>
    simp only [filterWeek, Except.ok.injEq] at h
    subst h
    rfl
  | cons g gs ih =>
    simp only [filterWeek] at h
    cases hp : parseGameTime g.gameTime with
    | none => rw [hp] at h; simp at h
    | some t =>
      rw [hp] at h
      cases hr : filterWeek sow eow gs with
      | error e => rw [hr] at h; simp at h
      | ok rest =>
        rw [hr] at h
        simp only [Except.ok.injEq] at h
        subst h
        rw [List.filter_cons]
        by_cases hc : sow ≤ t ∧ t < eow
        · simp [hp, hc, ih rest hr]
        · simp [hp, hc, ih rest hr]

/-- Inserting an element whose key equals `v` prepends it to the `v`-slice:
every element the insertion skips over has a strictly smaller key. -/
theorem filter_orderedInsert_eq (v : String) (x : Prediction)
    (hx : x.game.gameTime = v) (m : List Prediction) :
    (List.orderedInsert predLe x m).filter
        (fun p => decide (p.game.gameTime = v)) =
      x :: m.filter (fun p => decide (p.game.gameTime = v)) := by
  induction m with
  | nil => simp [List.orderedInsert, hx]
  | cons y m ih =>
    by_cases hxy : predLe x y
    · rw [List.orderedInsert_of_le predLe m hxy]
      simp [List.filter_cons, hx]
    · have hyv : ¬ y.game.gameTime = v := by
        intro hy
        apply hxy
        unfold predLe strLe
        rw [hx, hy]
        exact strLeL_refl v.data
      simp only [List.orderedInsert, if_neg hxy, List.filter_cons, hyv,
        decide_eq_true_eq, if_neg, ih]
      simp [hyv]

/-- Inserting an element whose key differs from `v` leaves the `v`-slice
unchanged. -/
theorem filter_orderedInsert_ne (v : String) (x : Prediction)
    (hx : ¬ x.game.gameTime = v) (m : List Prediction) :
    (List.orderedInsert predLe x m).filter
        (fun p => decide (p.game.gameTime = v)) =
      m.filter (fun p => decide (p.game.gameTime = v)) := by
  induction m with
  | nil => simp [List.orderedInsert, hx]
  | cons y m ih =>
    by_cases hxy : predLe x y
    · rw [List.orderedInsert_of_le predLe m hxy]
      simp [List.filter_cons, hx]
    · simp only [List.orderedInsert, if_neg hxy, List.filter_cons, ih]

/-- Stability of the sort: for every key value, the slice of predictions
with that exact `gameTime` string is returned in input order. -/
theorem sortPredictions_filter (l : List Prediction) (v : String) :
    (sortPredictions l).filter (fun p => decide (p.game.gameTime = v)) =
      l.filter (fun p => decide (p.game.gameTime = v)) := by
  induction l with
  | nil => rfl
  | cons x l ih =>
    unfold sortPredictions at *
    simp only [List.insertionSort]
    by_cases hx : x.game.gameTime = v
    · rw [filter_orderedInsert_eq v x hx, ih, List.filter_cons]
      simp [hx]
    · rw [filter_orderedInsert_ne v x hx, ih, List.filter_cons]
      simp [hx]

/-- The sort output is ascending in the textual game time. -/
theorem sortPredictions_sorted (l : List Prediction) :
    List.Sorted predLe (sortPredictions l) :=
  List.sorted_insertionSort predLe l

/-! ## The claims -/

/-- Claim C5, counterexample.  On the worked example (home 24/20, away
27/23, favorite home, line -3.0) the pipeline does compute probability
51.25 (= 205/4), but the returned cover probability is 51.2 (= 256/5), not
51.3 (= 513/10): CPython's `round` rounds the tie 51.25 to the even tenth. -/
theorem c5_example_rounds_to_51_2_not_51_3 :
    calculate_cover_probability exampleGame exampleStats = 205/4
  ∧ (buildPrediction exampleStats exampleGame).cover_probability = 256/5
  ∧ (256/5 : ℚ) ≠ 513/10 := by
  refine ⟨?_, ?_, ?_⟩ <;> with_unfolding_all decide

/-- Claim C5, amended: on the worked example the pipeline computes
probability exactly 51.25 and the returned cover probability rounded to one
decimal is 51.2 (round-half-to-even), not 51.3. -/
theorem c5_example_computation :
    calculate_cover_probability exampleGame exampleStats = 205/4
  ∧ (buildPrediction exampleStats exampleGame).cover_probability = 256/5 := by
  constructor <;> with_unfolding_all decide

/-- Claim C4, counterexample.  The home team is absent from the stats
mapping, so the probability defaults to exactly 50.0 — but the favorite (the
away team) IS in the mapping, so the record is its formatted "2-1", not
"N/A": the second conjunct of the claim fails when the missing team is not
the favorite. -/
theorem c4_missing_home_but_favorite_present :
    lookupStats statsAwayOnly gameAwayFav.homeTeam = none
  ∧ (buildPrediction statsAwayOnly gameAwayFav).cover_probability = 50
  ∧ (buildPrediction statsAwayOnly gameAwayFav).favorite_ats_record = "2-1"
  ∧ ("2-1" : String) ≠ "N/A" := by
  refine ⟨?_, ?_, ?_, ?_⟩ <;> with_unfolding_all decide

/-- Claim C4, amended: when either listed team is absent from the stats
mapping the prediction's cover probability is exactly 50.0; the ATS record,
however, depends only on the FAVORITE's presence: it is "N/A" when the
favorite is absent and the favorite's formatted record when present. -/
theorem c4_missing_team_defaults (ts : List (String × TeamStats)) (g : Game)
    (h : lookupStats ts g.homeTeam = none ∨ lookupStats ts g.awayTeam = none) :
    (buildPrediction ts g).cover_probability = 50
  ∧ (buildPrediction ts g).favorite_ats_record =
      (match lookupStats ts g.favorite with
       | some favorite_stats => atsRecordString favorite_stats
       | none => "N/A") := by
  constructor
  · have h50 : calculate_cover_probability g ts = 50 := by
      unfold calculate_cover_probability
      rcases h with h | h
      · rw [h]
      · rw [h]
        cases lookupStats ts g.homeTeam <;> rfl
    show pyRound1 (calculate_cover_probability g ts) = 50
    rw [h50]
    with_unfolding_all decide
  · rfl

/-- Witness for `c4_missing_team_defaults` on a concrete game whose home
team is missing while the away favorite has a 2-1 record. -/
theorem c4_missing_team_defaults_witness :
    (buildPrediction statsAwayOnly gameAwayFav).cover_probability = 50
  ∧ (buildPrediction statsAwayOnly gameAwayFav).favorite_ats_record =
      (match lookupStats statsAwayOnly gameAwayFav.favorite with
       | some favorite_stats => atsRecordString favorite_stats
       | none => "N/A") :=
  c4_missing_team_defaults statsAwayOnly gameAwayFav
    (Or.inl (by with_unfolding_all decide))

set_option maxRecDepth 4000 in
/-- Claim C2, counterexample.  An empty-but-successful odds response is
distinguished from Failure by `get_nfl_odds` (it returns the empty list, not
`None`), but the request does NOT proceed with zero games: the endpoint's
`if not odds_data` guard is true on the empty list, so the request fails
with the 503 service-unavailable error even though no fetch failed. -/
theorem c2_empty_success_yields_503 :
    get_nfl_odds (.success []) = some []
  ∧ get_nfl_predictions envEmptyOdds stEmpty =
      (.err 503 "Failed to fetch data from one or more external sources.",
        stEmpty, true) := by
  constructor
  · rfl
  · with_unfolding_all decide

/-- Claim C2, amended: `get_nfl_odds` distinguishes an empty successful
response (`[]`) from Failure (`None`), but the endpoint treats the empty
list exactly like a failure: on a cache miss with a configured key it aborts
with the 503 service-unavailable error and leaves the cache unchanged. -/
theorem c2_empty_success_amended (env : Env) (st : CacheState)
    (hmiss : cacheHitB env st = false) (hkey : keyFalsy env.apiKey = false)
    (hodds : env.oddsResult = .success []) :
    get_nfl_odds env.oddsResult = some []
  ∧ get_nfl_predictions env st =
      (.err 503 "Failed to fetch data from one or more external sources.",
        st, true) := by
  constructor
  · rw [hodds]
    rfl
  · unfold get_nfl_predictions
    rw [hmiss, hkey, hodds]
    simp [get_nfl_odds, oddsFalsy]

/-- Witness for `c2_empty_success_amended` at the concrete empty-odds
environment. -/
theorem c2_empty_success_amended_witness :
    get_nfl_odds envEmptyOdds.oddsResult = some []
  ∧ get_nfl_predictions envEmptyOdds stEmpty =
      (.err 503 "Failed to fetch data from one or more external sources.",
        stEmpty, true) :=
  c2_empty_success_amended envEmptyOdds stEmpty (by decide) (by decide) rfl

set_option maxRecDepth 8000 in
/-- Claim C1, counterexample.  The pipeline successfully computed and cached
the EMPTY payload at instant 0 (the only listed game is outside the week);
the next call only 60 seconds later — far within 30 minutes — re-invoked the
fetch/compute pipeline instead of returning the cached payload without
recomputation: `if cached_data` is falsy on the empty list, so an empty
payload never produces a cache hit. -/
theorem c1_empty_payload_recomputes :
    get_nfl_predictions envFirst stEmpty = (.ok [], ⟨some [], some 0⟩, true)
  ∧ (get_nfl_predictions envSecond ⟨some [], some 0⟩).2.2 = true := by
  constructor <;> with_unfolding_all decide

/-- Claim C1, amended: for a successful computation cached at `t0` with a
NON-EMPTY payload P, a call at `now` with `now - t0 < 30` minutes returns P
without re-invoking the pipeline; with the API key configured, a call with
`now - t0 >= 30` minutes re-invokes the pipeline; a cached EMPTY payload
never hits — every later call (key configured) re-invokes the pipeline. -/
theorem c1_cache_freshness (env : Env) (st : CacheState)
    (payload : List Prediction) (t0 : ℤ)
    (hc : st.cached_data = some payload) (ht : st.last_fetch_time = some t0) :
    (payload ≠ [] → env.now - t0 < 30 * 60 →
      get_nfl_predictions env st = (.ok payload, st, false))
  ∧ (keyFalsy env.apiKey = false → 30 * 60 ≤ env.now - t0 →
      (get_nfl_predictions env st).2.2 = true)
  ∧ (keyFalsy env.apiKey = false → payload = [] →
      (get_nfl_predictions env st).2.2 = true) := by
  refine ⟨?_, ?_, ?_⟩
  · intro hne hfresh
    rw [hit_returns_cache env st (cacheHitB_of_fresh env st payload t0 hc ht hne hfresh), hc]
    rfl
  · intro hkey hstale
    apply pipeline_flag env st _ hkey
    unfold cacheHitB
    rw [hc, ht]
    have hd : decide (env.now - t0 < 30 * 60) = false := by
      simp only [decide_eq_false_iff_not]
      omega
    show (!payload.isEmpty && decide (env.now - t0 < 30 * 60)) = false
    rw [hd]
    simp
  · intro hkey hemp
    apply pipeline_flag env st _ hkey
    unfold cacheHitB
    rw [hc, ht, hemp]
    rfl

/-- Witness for `c1_cache_freshness`: a non-empty payload cached at instant
0 is returned unchanged at instant 60 without running the pipeline. -/
theorem c1_cache_freshness_witness :
    get_nfl_predictions envFresh stStale = (.ok [predState], stStale, false) :=
  (c1_cache_freshness envFresh stStale [predState] 0 rfl rfl).1
    (by decide) (by decide)

/-- Claim C9: when a cache refresh fails — the stats fetch returns Failure
or the odds fetch returns Failure — the request aborts with the 503 error,
the cache state (a previously stored payload and its timestamp included) is
left exactly as it was, and the stale payload is not served in place of the
error. -/
theorem c9_refresh_failure_preserves_cache (env : Env) (st : CacheState)
    (hmiss : cacheHitB env st = false) (hkey : keyFalsy env.apiKey = false)
    (hfail : env.teamStats = none ∨ env.oddsResult = .failure) :
    get_nfl_predictions env st =
      (.err 503 "Failed to fetch data from one or more external sources.",
        st, true) := by
  unfold get_nfl_predictions
  rw [hmiss, hkey]
  rcases hfail with h | h
  · rw [h]
    simp [Option.isNone]
  · rw [h]
    simp [get_nfl_odds, oddsFalsy]

/-- Witness for `c9_refresh_failure_preserves_cache`: a stats-fetch failure
two hours after a stored payload leaves that exact state in place. -/
theorem c9_refresh_failure_witness :
    get_nfl_predictions envStatsFail stStale =
      (.err 503 "Failed to fetch data from one or more external sources.",
        stStale, true) :=
  c9_refresh_failure_preserves_cache envStatsFail stStale (by decide)
    (by decide) (Or.inl rfl)

/-- Claim C10: a fresh cache hit (non-empty payload younger than 30
minutes) returns the stored payload before the API-key check runs — even
with the key missing — and a 500 response (the missing-credential error
included) can only arise on a cache miss or expiry, never on a hit. -/
theorem c10_hit_before_key_check (env : Env) (st : CacheState) :
    (cacheHitB env st = true →
      get_nfl_predictions env st = (.ok (st.cached_data.getD []), st, false))
  ∧ (∀ msg, (get_nfl_predictions env st).1 = .err 500 msg →
      cacheHitB env st = false) := by
  constructor
  · exact hit_returns_cache env st
  · intro msg h
    cases hhit : cacheHitB env st with
    | false => rfl
    | true =>
      rw [hit_returns_cache env st hhit] at h
      simp at h

/-- Witness for `c10_hit_before_key_check`: with the API key NOT configured
and a fresh non-empty payload, the endpoint still returns the payload. -/
theorem c10_hit_before_key_check_witness :
    get_nfl_predictions envNoKey stStale =
      (.ok (stStale.cached_data.getD []), stStale, false) :=
  (c10_hit_before_key_check envNoKey stStale).1 (by decide)

set_option maxRecDepth 8000 in
/-- Claim C3, counterexample.  Normalization is NOT total: a record whose
(first) market lacks the required `'key'` field makes `transform_api_data`
raise a KeyError instead of dropping the record, and the exception escapes
to fail the whole request with a 500. -/
theorem c3_missing_field_raises :
    transform_api_data (some [badMarketGame]) = .error "KeyError"
  ∧ (get_nfl_predictions envBadMarket stEmpty).1 =
      .err 500 "Internal Server Error" := by
  constructor
  · rfl
  · with_unfolding_all decide

/-- Claim C3, amended: on field-complete records (every required field
present in the game and in every market/outcome of its first bookmaker)
normalization is total, and the structurally malformed records — no
bookmaker, no spreads market, fewer than two outcomes, no negative-point
outcome — are silently dropped, as computed by the total per-record body
`pureProcess`; a record with a MISSING required field instead raises an
exception that fails the whole request. -/
theorem c3_transform_total_on_field_complete (l : List RawGame)
    (h : ∀ g ∈ l, rawFieldsOk g = true) :
    transform_api_data (some l) = .ok (l.filterMap pureProcess) :=
  transform_fieldsOk l h

/-- Witness for `c3_transform_total_on_field_complete`: one emitted game,
one silently dropped bookmaker-less record. -/
theorem c3_transform_total_witness :
    transform_api_data (some [rawZulu, noBookGame]) =
      .ok ([rawZulu, noBookGame].filterMap pureProcess) :=
  c3_transform_total_on_field_complete [rawZulu, noBookGame] (by decide)

/-- Claim C6: `startOfWeek` is the most recent Thursday at 00:00:00 UTC on
or before `now` (weekday 3 in the Monday=0 convention, midnight, at most 6
days and a fraction back), the window is 7 days, and a successful filter
keeps exactly the games with `startOfWeek <= gameTime < endOfWeek` — the
start boundary included, the end boundary excluded. -/
theorem c6_week_window (now : ℤ) :
    pyWeekday (startOfWeek now) = 3
  ∧ startOfWeek now % 86400 = 0
  ∧ startOfWeek now ≤ now
  ∧ now - startOfWeek now < 7 * 86400
  ∧ (∀ games res,
      filterWeek (startOfWeek now) (startOfWeek now + 7 * 86400) games =
        .ok res →
      res = games.filter (fun g =>
        match parseGameTime g.gameTime with
        | some t => decide (startOfWeek now ≤ t ∧
            t < startOfWeek now + 7 * 86400)
        | none => false)) := by
  refine ⟨?_, ?_, ?_, ?_, ?_⟩
  · unfold pyWeekday pyDay startOfWeek pyWeekday pyDay
    omega
  · unfold startOfWeek pyWeekday pyDay
    omega
  · unfold startOfWeek pyWeekday pyDay
    omega
  · unfold startOfWeek pyWeekday pyDay
    omega
  · intro games res h
    exact filterWeek_ok _ _ games res h

/-- Witness for `c6_week_window` at instant 1000000 (Monday 1970-01-12),
whose week starts Thursday 1970-01-08T00:00:00Z: a game exactly at the start
of the week is kept, a game exactly at the end of the week is dropped. -/
theorem c6_week_window_witness :
    [gameAtStart] = [gameAtStart, gameAtEnd].filter (fun g =>
      match parseGameTime g.gameTime with
      | some t => decide (startOfWeek 1000000 ≤ t ∧
          t < startOfWeek 1000000 + 7 * 86400)
      | none => false) :=
  (c6_week_window 1000000).2.2.2.2 [gameAtStart, gameAtEnd] [gameAtStart]
    (by rfl)

set_option maxRecDepth 8000 in
/-- Claim C7, counterexample.  The returned sequence is NOT sorted by the
instant: with two same-week games whose ISO strings use different UTC
offsets, the endpoint orders them by the lexicographically smaller STRING
("…T01:00:00Z" before "…T02:00:00+02:00"), which puts the LATER instant
(3600) before the earlier one (0). -/
theorem c7_sorted_by_text_not_instant :
    (get_nfl_predictions envMixed stEmpty).1 =
      .ok [⟨⟨"a", "1970-01-01T01:00:00Z", "C", "D", "H", -3⟩, 50, "N/A"⟩,
           ⟨⟨"b", "1970-01-01T02:00:00+02:00", "A", "H", "H", -3⟩, 50, "N/A"⟩]
  ∧ parseGameTime "1970-01-01T01:00:00Z" = some 3600
  ∧ parseGameTime "1970-01-01T02:00:00+02:00" = some 0
  ∧ ¬ ((3600 : ℤ) ≤ 0) := by
  refine ⟨?_, ?_, ?_, ?_⟩
  · with_unfolding_all decide
  · rfl
  · rfl
  · decide

/-- Claim C7, amended: the prediction sequence is sorted ascending by the
TEXTUAL `gameTime` encoding (lexicographic string comparison, which agrees
with the instant only when all strings share one fixed-width UTC format),
and predictions with equal `gameTime` strings keep their original input
order: the sort is stable. -/
theorem c7_sort_stable_by_text (l : List Prediction) :
    List.Sorted predLe (sortPredictions l)
  ∧ ∀ s, (sortPredictions l).filter (fun p => decide (p.game.gameTime = s)) =
      l.filter (fun p => decide (p.game.gameTime = s)) :=
  ⟨sortPredictions_sorted l, fun s => sortPredictions_filter l s⟩

/-- Claim C8, counterexample.  The normalizer copies the favorite outcome's
name without checking it against the team fields: a raw record whose
negative-point outcome is named "X" is emitted as a Game whose favorite is
neither the away team "A" nor the home team "H". -/
theorem c8_favorite_outside_teams :
    transform_api_data (some [rogueGame]) =
      .ok [⟨"g", "1970-01-01T01:00:00Z", "A", "H", "X", -3⟩]
  ∧ ("X" : String) ≠ "A" ∧ ("X" : String) ≠ "H" := by
  refine ⟨?_, by decide, by decide⟩
  rfl

/-- Claim C8, amended: every emitted Game carries a strictly negative line
(a raw record lacking a negative-point outcome is discarded), and — provided
every outcome name under the first bookmaker names one of the record's two
teams, which the code trusts but never checks — the emitted favorite is one
of `{awayTeam, homeTeam}`. -/
theorem c8_favorite_invariant (l : List RawGame) (res : List Game)
    (h : transform_api_data (some l) = .ok res) :
    ∀ gm ∈ res, gm.line < 0 ∧
      ((∀ g ∈ l, rawNamesOk g = true) →
        gm.favorite = gm.awayTeam ∨ gm.favorite = gm.homeTeam) := by
  intro gm hmem
  obtain ⟨g, hg, hpg⟩ := transform_mem h hmem
  obtain ⟨b, bs, hb, m, hfs, o, hom, hnm, hpt, hlt, haw, hhm⟩ :=
    processGame_some hpg
  refine ⟨hlt, ?_⟩
  intro hnames
  have hok := hnames g hg
  unfold rawNamesOk at hok
  rw [hb] at hok
  have hall : (b.markets.getD []).all (fun m2 =>
      (m2.outcomes.getD []).all fun o2 =>
        match o2.name with
        | some n => (g.away_team == some n) || (g.home_team == some n)
        | none => true) = true := hok
  have hmall := (List.all_eq_true.mp hall) m (findSpreads_mem hfs)
  have hoall := (List.all_eq_true.mp hmall) o hom
  rw [hnm] at hoall
  have hoall2 : ((g.away_team == some gm.favorite) ||
      (g.home_team == some gm.favorite)) = true := hoall
  rw [haw, hhm] at hoall2
  simp only [Bool.or_eq_true] at hoall2
  rcases hoall2 with hx | hx
  · exact Or.inl (Option.some.inj (eq_of_beq hx)).symm
  · exact Or.inr (Option.some.inj (eq_of_beq hx)).symm

/-- Witness for `c8_favorite_invariant` on a well-formed record whose
outcome names match its teams. -/
theorem c8_favorite_invariant_witness :
    gameGood.line < 0 ∧
      (gameGood.favorite = gameGood.awayTeam ∨
        gameGood.favorite = gameGood.homeTeam) := by
  have h := c8_favorite_invariant [rawGood] [gameGood] (by rfl) gameGood
    (List.mem_singleton.mpr rfl)
  exact ⟨h.1, h.2 (by decide)⟩
